import Mathlib

/-!
Shallow embedding of the afterparty-ng webhook library
(src/src/lib.rs, src/src/hook.rs) for checking its natural-language
specification.

Rust strings (`&str`, `String`) are modelled as lists of bytes
(`List Nat`, each entry < 256), matching their UTF-8 memory
representation; this keeps signature verification, string slicing and
UTF-8 validation faithful to the byte-level behaviour of the source.
-/

set_option maxRecDepth 1000000

set_option maxHeartbeats 2000000

namespace Afterparty

/-- Bytes of a Lean string literal under UTF-8 encoding, used to write
concrete byte-list inputs readably. -/
def charUtf8 (c : Char) : List Nat :=
  let n := c.toNat
  if n < 0x80 then [n]
  else if n < 0x800 then [0xC0 + n / 64, 0x80 + n % 64]
  else if n < 0x10000 then [0xE0 + n / 4096, 0x80 + n / 64 % 64, 0x80 + n % 64]
  else [0xF0 + n / 262144, 0x80 + n / 4096 % 64, 0x80 + n / 64 % 64, 0x80 + n % 64]

/-- UTF-8 bytes of a string (`str.as_bytes()` in the source). -/
def strBytes (s : String) : List Nat :=
  s.data.flatMap charUtf8

/-- Bytes of the payload used by hook.rs's own test: the JSON object with
key "zen" and value "Approachable is better than simple.", braces and
interior double quotes included. -/
def zenPayload : List Nat :=
  [123, 34, 122, 101, 110, 34, 58, 32, 34, 65, 112, 112, 114, 111, 97,
   99, 104, 97, 98, 108, 101, 32, 105, 115, 32, 98, 101, 116, 116, 101,
   114, 32, 116, 104, 97, 110, 32, 115, 105, 109, 112, 108, 101, 46, 34,
   125]

/-! ## SHA-1 and HMAC-SHA1 (the `ring` primitives used by hook.rs) -/

/-- Truncation to a 32-bit word. -/
def w32 (n : Nat) : Nat := n % 4294967296

/-- Left rotation of a 32-bit word by `s` bits. -/
def rotl (s x : Nat) : Nat := w32 (x * 2 ^ s + x / 2 ^ (32 - s))

/-- Big-endian bytes of a 32-bit word. -/
def wordToBytes (x : Nat) : List Nat :=
  [x / 16777216 % 256, x / 65536 % 256, x / 256 % 256, x % 256]

/-- SHA-1 message padding: append 0x80, zero bytes to 56 mod 64, then the
bit length as 8 big-endian bytes. -/
def sha1pad (msg : List Nat) : List Nat :=
  let len := msg.length
  let zeros := (64 + 56 - (len + 1) % 64) % 64
  msg ++ [128] ++ List.replicate zeros 0 ++
    (List.range 8).map (fun i => len * 8 / 2 ^ (8 * (7 - i)) % 256)


/-- Big-endian 32-bit word from (up to) four bytes. -/
def bytesToWord (l : List Nat) : Nat := l.foldl (fun a b => a * 256 + b) 0

/-- The sixteen initial schedule words of a 64-byte chunk. -/
def chunkWords (c : List Nat) : List Nat :=
  (List.range 16).map (fun i => bytesToWord ((c.drop (4 * i)).take 4))

/-- Extend the message schedule by `n` further words
(`w[i] = rotl1 (w[i-3] xor w[i-8] xor w[i-14] xor w[i-16])`). -/
def extendWords (ws : List Nat) : Nat → List Nat
  | 0 => ws
  | n + 1 =>
    let p := extendWords ws n
    let i := p.length
    p ++ [rotl 1 (p.getD (i - 3) 0 ^^^ p.getD (i - 8) 0 ^^^
                  p.getD (i - 14) 0 ^^^ p.getD (i - 16) 0)]

/-- The full 80-word schedule of a chunk. -/
def sha1Schedule (c : List Nat) : List Nat := extendWords (chunkWords c) 64

/-- SHA-1 round function, selected by round index. -/
def sha1F (t b c d : Nat) : Nat :=
  if t < 20 then (b &&& c) ||| ((b ^^^ 4294967295) &&& d)
  else if t < 40 then b ^^^ c ^^^ d
  else if t < 60 then (b &&& c) ||| (b &&& d) ||| (c &&& d)
  else b ^^^ c ^^^ d

/-- SHA-1 round constant, selected by round index. -/
def sha1K (t : Nat) : Nat :=
  if t < 20 then 1518500249
  else if t < 40 then 1859775393
  else if t < 60 then 2400959708
  else 3395469782

/-- The five SHA-1 working registers. -/
structure Sha1State where
  a : Nat
  b : Nat
  c : Nat
  d : Nat
  e : Nat
deriving DecidableEq

/-- One SHA-1 compression round on scheduled word `wt` of round `t`. -/
def sha1Round (st : Sha1State) (tw : Nat × Nat) : Sha1State :=
  let temp := w32 (rotl 5 st.a + sha1F tw.1 st.b st.c st.d + st.e + sha1K tw.1 + tw.2)
  ⟨temp, st.a, rotl 30 st.b, st.c, st.d⟩

/-- SHA-1 initial state. -/
def sha1Init : Sha1State :=
  ⟨1732584193, 4023233417, 2562383102, 271733878, 3285377520⟩

/-- Compress one 64-byte chunk into the running state. -/
def sha1Compress (h0 : Sha1State) (chunk : List Nat) : Sha1State :=
  let st := ((List.range 80).zip (sha1Schedule chunk)).foldl sha1Round h0
  ⟨w32 (h0.a + st.a), w32 (h0.b + st.b), w32 (h0.c + st.c),
   w32 (h0.d + st.d), w32 (h0.e + st.e)⟩

/-- Compress `n` successive 64-byte chunks of `l` into the state. -/
def sha1Blocks : Nat → Sha1State → List Nat → Sha1State
  | 0, st, _ => st
  | n + 1, st, l => sha1Blocks n (sha1Compress st (l.take 64)) (l.drop 64)

/-- SHA-1 digest (20 bytes) of a byte list. -/
def sha1 (msg : List Nat) : List Nat :=
  let padded := sha1pad msg
  let f := sha1Blocks (padded.length / 64) sha1Init padded
  wordToBytes f.a ++ wordToBytes f.b ++ wordToBytes f.c ++
    wordToBytes f.d ++ wordToBytes f.e

/-- HMAC-SHA1 of `msg` keyed by `key` (`ring::hmac` with `digest::SHA1`):
keys longer than the 64-byte block are first hashed, the key is
zero-padded to the block size, and the digest is
`sha1 (opad ++ sha1 (ipad ++ msg))`. -/
def hmacSha1 (key msg : List Nat) : List Nat :=
  let k0 := if 64 < key.length then sha1 key else key
  let kp := k0 ++ List.replicate (64 - k0.length) 0
  sha1 ((kp.map (fun b => b ^^^ 92)) ++ sha1 ((kp.map (fun b => b ^^^ 54)) ++ msg))

/-! ## Hex encoding and decoding (the `hex` crate used by hook.rs) -/

/-- Value of one hex-digit byte (`0-9`, `a-f`, `A-F`), as `hex::FromHex`
accepts it; `none` for a non-hex byte. -/
def hexVal (b : Nat) : Option Nat :=
  if 48 ≤ b ∧ b ≤ 57 then some (b - 48)
  else if 97 ≤ b ∧ b ≤ 102 then some (b - 87)
  else if 65 ≤ b ∧ b ≤ 70 then some (b - 55)
  else none

/-- `Vec::from_hex` on a byte slice: pairs of hex digits to bytes, failing
on a non-hex byte or an odd length. -/
def fromHex : List Nat → Option (List Nat)
  | [] => some []
  | [_] => none
  | b1 :: b2 :: rest =>
    match hexVal b1, hexVal b2, fromHex rest with
    | some hi, some lo, some bs => some ((hi * 16 + lo) :: bs)
    | _, _, _ => none

/-- One lowercase hex-digit byte for a value below 16. -/
def hexDigitLower (n : Nat) : Nat := if n < 10 then 48 + n else 87 + n

/-- Lowercase hex encoding of a byte list (`write_hex` in the source's
test, GitHub's signature convention). -/
def toHexLower (bs : List Nat) : List Nat :=
  bs.flatMap (fun b => [hexDigitLower (b / 16), hexDigitLower (b % 16)])

/-! ## AuthenticateHook::authenticate (src/src/hook.rs lines 29-41)

`signature[5..signature.len()]` is a byte-range slice of a Rust `&str`:
it panics when the string is shorter than five bytes or when byte five
is not a character boundary.  The model returns `none` for that panic
and `some b` for a normal return of `b`. -/

/-- Rust `str::is_char_boundary` on the UTF-8 bytes: index 0, the length,
or a byte that is not a continuation byte. -/
def isCharBoundary (s : List Nat) (i : Nat) : Bool :=
  i == 0 ||
    (match s[i]? with
     | some b => decide (b < 128) || decide (192 ≤ b)
     | none => i == s.length)

namespace AuthenticateHook

/-- `AuthenticateHook::authenticate`: slice off the first five signature
bytes (without checking they spell `"sha1="`; panics — `none` — when
byte 5 is out of range or not a char boundary), hex-decode the rest, and
constant-time-compare against HMAC-SHA1 of the payload under the secret.
A hex-decode failure is `false`. -/
def authenticate (secret payload signature : List Nat) : Option Bool :=
  if isCharBoundary signature 5 ∧ 5 ≤ signature.length then
    match fromHex (signature.drop 5) with
    | some sigbytes => some (hmacSha1 secret payload == sigbytes)
    | none => some false
  else none

end AuthenticateHook

/-! ## The Event payload model and Delivery (src/src/lib.rs) -/

/-- Modelled from the spec: the Event union of src/src/events.rs is not
under src/ (only `mod events;` and its callers are).  Per §3 and §4.1 it
is a closed set of structured variants for known kinds plus one opaque
catch-all carrying the raw text. -/
inductive Event where
  | structured (kind : List Nat) (fields : List Nat)
  | unknown (raw : List Nat)
deriving DecidableEq

/-- Modelled from the spec: `parse(eventKind, rawJson)` of §4.1
(src/src/events.rs's `patch_payload_json` plus the serde decoding of
`Event` are not under src/).  Malformed JSON is the only error; a known
kind is decoded from the patched text; an unknown kind succeeds with the
opaque variant holding `rawJson` unmodified.  The JSON well-formedness
test, the known-kind set, the known-kind decoder and the patch function
are parameters, since their details live in the missing file. -/
def parseEvent (wf : List Nat → Bool) (knownKinds : List (List Nat))
    (decodeKnown : List Nat → List Nat → Option Event)
    (patch : List Nat → List Nat → List Nat)
    (eventKind rawJson : List Nat) : Option Event :=
  if wf rawJson then
    if eventKind ∈ knownKinds then decodeKnown eventKind (patch eventKind rawJson)
    else some (Event.unknown rawJson)
  else none

/-- A delivery encodes all information about a webhook request
(src/src/lib.rs lines 30-37). -/
structure Delivery where
  id : List Nat
  event : List Nat
  payload : Event
  unparsed_payload : List Nat
  signature : Option (List Nat)
deriving DecidableEq

namespace Delivery

/-- `Delivery::new` (src/src/lib.rs lines 40-63), parameterized by the
parse step (serde on the patched payload, from the missing events.rs):
on parse success the delivery holds the parsed payload and the raw
unparsed payload; on failure it is `None`. -/
def new (parse : List Nat → List Nat → Option Event)
    (id event payload : List Nat) (signature : Option (List Nat)) :
    Option Delivery :=
  match parse event payload with
  | some parsed => some ⟨id, event, parsed, payload, signature⟩
  | none => none

end Delivery

/-! ## Hooks (src/src/hook.rs) -/

/-- The `Hook` trait's implementations in the repository: the closure
adapter (identified by an abstract callback id) and `AuthenticateHook`
wrapping a secret and an inner hook. -/
inductive Hook where
  | callback (id : Nat)
  | authenticate (secret : List Nat) (inner : Hook)
deriving DecidableEq

namespace Hook

/-- `Hook::handle` observed by its effect: `some trace` lists the ids of
the callbacks invoked, `none` is a panic.  A closure hook invokes
itself; `AuthenticateHook::handle` (src/src/hook.rs lines 44-54) does
nothing without a signature, delegates to the inner hook when
`authenticate` returns true, only logs when it returns false, and
propagates the panic when the signature slice panics. -/
def handle : Hook → Delivery → Option (List Nat)
  | callback i, _ => some [i]
  | authenticate secret inner, d =>
    match d.signature with
    | none => some []
    | some sig =>
      match AuthenticateHook.authenticate secret d.unparsed_payload sig with
      | none => none
      | some true => inner.handle d
      | some false => some []

end Hook

/-! ## The Hub registry (src/src/lib.rs lines 66-106) -/

/-- The hook registry: `HashMap<String, Vec<Box<Hook>>>` as a map from
key bytes to the registered list, `none` for an absent key. -/
def HubMap : Type := List Nat → Option (List Hook)

namespace Hub

/-- `Hub::new` / `Default`: the empty map. -/
def new : HubMap := fun _ => none

/-- `Hub::handle`: append the hook to the entry for `event`, inserting an
empty entry first when absent (`entry(..).or_insert(vec![]).push(..)`). -/
def handle (m : HubMap) (event : List Nat) (hook : Hook) : HubMap :=
  fun k => if k = event then some (((m event).getD []) ++ [hook]) else m k

/-- `Hub::handle_authenticated`: sugar for registering the wrapped
authenticating hook. -/
def handle_authenticated (m : HubMap) (event secret : List Nat) (hook : Hook) :
    HubMap :=
  handle m event (Hook.authenticate secret hook)

end Hub

/-! ## The Worker dispatch service (src/src/lib.rs lines 108-209) -/

/-- Is a byte a continuation byte (`10xxxxxx`)? -/
def isCont (b : Nat) : Bool := decide (128 ≤ b) && decide (b < 192)

/-- Validity of a byte list as UTF-8, as `String::from_utf8` checks it
(minimal encodings only, no surrogates, max U+10FFFF). -/
def utf8Valid : List Nat → Bool
  | [] => true
  | b1 :: t1 =>
    if b1 < 128 then utf8Valid t1
    else if b1 < 194 then false
    else if b1 < 224 then
      match t1 with
      | b2 :: t2 => isCont b2 && utf8Valid t2
      | [] => false
    else if b1 < 240 then
      match t1 with
      | b2 :: b3 :: t3 =>
        (if b1 = 224 then decide (160 ≤ b2) && decide (b2 < 192)
         else if b1 = 237 then decide (128 ≤ b2) && decide (b2 < 160)
         else isCont b2) && isCont b3 && utf8Valid t3
      | _ => false
    else if b1 < 245 then
      match t1 with
      | b2 :: b3 :: b4 :: t4 =>
        (if b1 = 240 then decide (144 ≤ b2) && decide (b2 < 192)
         else if b1 = 244 then decide (128 ≤ b2) && decide (b2 < 144)
         else isCont b2) && isCont b3 && isCont b4 && utf8Valid t4
      | _ => false
    else false

/-- `HeaderValue::to_str` (the `http` crate): succeeds exactly when every
byte is visible ASCII (32-126) or horizontal tab. -/
def headerToStr (v : List Nat) : Option (List Nat) :=
  if v.all (fun b => (decide (32 ≤ b) && decide (b < 127)) || b == 9) then some v
  else none

/-- An inbound HTTP request as Worker::call consumes it: the three header
values it reads (by raw bytes, `none` when absent) and the body byte
stream (`none` models a failing `concat2().wait()`). -/
structure Request where
  eventHeader : Option (List Nat)
  deliveryHeader : Option (List Nat)
  signatureHeader : Option (List Nat)
  body : Option (List Nat)
deriving DecidableEq

/-- An HTTP response: status code and static body text. -/
structure HttpResponse where
  status : Nat
  body : String
deriving DecidableEq

/-- Observable outcome of one Worker::call: whether the body stream was
consumed, the ids of the callbacks invoked (in order, up to a panic),
and the response (`none` when a hook's panic propagates out). -/
structure CallResult where
  bodyRead : Bool
  invoked : List Nat
  response : Option HttpResponse
deriving DecidableEq

namespace Worker

/-- `Worker::hooks` (src/src/lib.rs lines 120-133): the explicit entry
chained with the wildcard (`"*"`) entry, `None` when neither exists. -/
def hooks (m : HubMap) (event : List Nat) : Option (List Hook) :=
  match m event, m (strBytes "*") with
  | some ex, some im => some (ex ++ im)
  | some ex, none => some ex
  | none, some im => some im
  | none, none => none

/-- The dispatch loop `for hook in hooks { hook.handle(&delivery) }`:
the concatenated invocation trace, and whether a panic cut it short. -/
def runHooks : List Hook → Delivery → List Nat × Bool
  | [], _ => ([], false)
  | h :: rest, d =>
    match h.handle d with
    | none => ([], true)
    | some t =>
      let r := runHooks rest d
      (t ++ r.1, r.2)

/-- The signature value as Worker::call extracts it from the optional
`X-Hub-Signature` header (src/src/lib.rs lines 171-175). -/
def sigOf (req : Request) : Option (List Nat) :=
  match req.signatureHeader with
  | some v => headerToStr v
  | none => none

/-- `Worker::call` (src/src/lib.rs lines 153-208), parameterized by the
parse step of the missing events.rs: validate the two required headers,
resolve hooks (responding 500 "Server not configured" when none), read
the body, require strict UTF-8, build the Delivery, run every hook in
order, and answer 202 "OK". -/
def call (m : HubMap) (parse : List Nat → List Nat → Option Event)
    (req : Request) : CallResult :=
  match req.eventHeader, req.deliveryHeader with
  | some ev, some dv =>
    match headerToStr ev, headerToStr dv with
    | some event_str, some delivery_str =>
      let signature : Option (List Nat) := sigOf req
      match hooks m event_str with
      | some hks =>
        match req.body with
        | some bodyBytes =>
          if utf8Valid bodyBytes then
            match Delivery.new parse delivery_str event_str bodyBytes signature with
            | some dlv =>
              let r := runHooks hks dlv
              ⟨true, r.1, if r.2 then none else some ⟨202, "OK"⟩⟩
            | none => ⟨true, [], some ⟨400, "Failed to parse event"⟩⟩
          else ⟨true, [], some ⟨400, "Failed to parse request body"⟩⟩
        | none => ⟨true, [], some ⟨400, "Failed to retrieve request body"⟩⟩
      | none => ⟨false, [], some ⟨500, "Server not configured"⟩⟩
    | _, _ => ⟨false, [], some ⟨400, "Invalid headers"⟩⟩
  | _, _ => ⟨false, [], some ⟨400, "Invalid Response"⟩⟩

end Worker

/-- Hubs reachable from `Hub::new()` by `handle` / `handle_authenticated`
calls. -/
inductive Reachable : HubMap → Prop where
  | new : Reachable Hub.new
  | handle (m : HubMap) (k : List Nat) (h : Hook) :
      Reachable m → Reachable (Hub.handle m k h)
  | handle_auth (m : HubMap) (k s : List Nat) (h : Hook) :
      Reachable m → Reachable (Hub.handle_authenticated m k s h)

/-! ## Theorems about the embedded program -/

/-- C1: for every registry state and event kind, `Worker::hooks` returns
the sequence registered under the kind (if any) followed by the sequence
registered under `"*"` (if any), each in registration order with
explicit hooks first, and is `None` — distinguishable from an empty
sequence — exactly when neither key is registered. -/
theorem hooks_concat_explicit_then_wildcard (m : HubMap) (k : List Nat) :
    Worker.hooks m k =
      if m k = none ∧ m (strBytes "*") = none then none
      else some ((m k).getD [] ++ (m (strBytes "*")).getD []) := by
  unfold Worker.hooks
  cases hm : m k <;> cases hw : m (strBytes "*") <;> simp

/-- Helper: in a reachable hub every present key holds a non-empty list,
because `Hub::handle` only ever appends a hook to the entry it creates. -/
theorem reachable_key_nonempty {m : HubMap} (hr : Reachable m) :
    ∀ k l, m k = some l → l ≠ [] := by
  induction hr with
  | new =>
    intro k l h
    exact absurd h (by simp [Hub.new])
  | handle m0 k0 h0 _ ih =>
    intro k l h
    unfold Hub.handle at h
    split at h
    · injection h with h2
      subst h2
      simp
    · exact ih k l h
  | handle_auth m0 k0 s h0 _ ih =>
    intro k l h
    unfold Hub.handle_authenticated Hub.handle at h
    split at h
    · injection h with h2
      subst h2
      simp
    · exact ih k l h

/-- C10: in every hub reachable from `Hub::new()` by `handle` and
`handle_authenticated` calls, every present key holds a non-empty hook
list, so `Worker::hooks` never returns `Some` of an empty sequence. -/
theorem reachable_no_empty_hooklist {m : HubMap} (hr : Reachable m) :
    (∀ k l, m k = some l → l ≠ []) ∧ ∀ k, Worker.hooks m k ≠ some [] := by
  refine ⟨reachable_key_nonempty hr, ?_⟩
  intro k h
  unfold Worker.hooks at h
  cases hm : m k with
  | none =>
    cases hw : m (strBytes "*") with
    | none => rw [hm, hw] at h; simp at h
    | some im =>
      rw [hm, hw] at h
      simp at h
      exact reachable_key_nonempty hr _ _ hw h
  | some ex =>
    cases hw : m (strBytes "*") with
    | none =>
      rw [hm, hw] at h
      simp at h
      exact reachable_key_nonempty hr _ _ hm h
    | some im =>
      rw [hm, hw] at h
      simp at h
      exact reachable_key_nonempty hr _ _ hm h.1

/-- C10 witness: a concrete reachable hub with one registered hook never
resolves to an empty sequence. -/
theorem reachable_no_empty_hooklist_witness :
    Worker.hooks (Hub.handle Hub.new (strBytes "push") (Hook.callback 0))
      (strBytes "push") ≠ some [] :=
  (reachable_no_empty_hooklist (Reachable.handle _ _ _ Reachable.new)).2
    (strBytes "push")

/-- C7: a delivery without a signature makes `AuthenticateHook::handle`
return normally without invoking the inner hook, for every secret and
inner hook. -/
theorem authenticate_hook_absent_signature (secret : List Nat) (inner : Hook)
    (d : Delivery) (h : d.signature = none) :
    Hook.handle (Hook.authenticate secret inner) d = some [] := by
  simp [Hook.handle, h]

/-- C7 witness: the theorem applied to a concrete unsigned delivery. -/
theorem authenticate_hook_absent_signature_witness :
    Hook.handle (Hook.authenticate (strBytes "secret") (Hook.callback 3))
      ⟨strBytes "1", strBytes "ping", Event.unknown [], [], none⟩ = some [] :=
  authenticate_hook_absent_signature _ _ _ rfl

/-- C2 fails on the code: with no explicit and no wildcard hooks the
service answers 500 "Server not configured" — a server-error status and
a different body than the claimed accepted/no-op "no hook configured"
(the body is indeed not read: `bodyRead = false`). -/
theorem no_hooks_gives_500_counterexample :
    Worker.call Hub.new (fun _ _ => none)
        ⟨some (strBytes "ping"), some (strBytes "1"), none, some ([123, 125])⟩ =
      ⟨false, [], some ⟨500, "Server not configured"⟩⟩ ∧
    (500 : Nat) ≠ 202 ∧ "Server not configured" ≠ "no hook configured" :=
  ⟨by decide, by decide, by decide⟩

/-- C2 amended: for every request whose event kind resolves no hooks, the
service responds 500 with body "Server not configured" and neither reads
nor parses the request body. -/
theorem no_hooks_gives_500 (m : HubMap)
    (parse : List Nat → List Nat → Option Event) (req : Request)
    (ev dv : List Nat)
    (hev : req.eventHeader = some ev) (hdv : req.deliveryHeader = some dv)
    (hev2 : headerToStr ev = some ev) (hdv2 : headerToStr dv = some dv)
    (hhk : Worker.hooks m ev = none) :
    Worker.call m parse req = ⟨false, [], some ⟨500, "Server not configured"⟩⟩ := by
  unfold Worker.call
  rw [hev, hdv]
  simp [hev2, hdv2, hhk]

/-- C2 amended witness: the theorem applied to a concrete request with an
unregistered event kind. -/
theorem no_hooks_gives_500_witness :
    Worker.call Hub.new (fun _ _ => some (Event.unknown []))
        ⟨some (strBytes "push"), some (strBytes "7"), none, some []⟩ =
      ⟨false, [], some ⟨500, "Server not configured"⟩⟩ :=
  no_hooks_gives_500 _ _ _ _ _ rfl rfl (by decide) (by decide) (by decide)

/-- C6 fails on the code: body reading is strict `String::from_utf8`, not
lossy — the same request is rejected 400 with an invalid-UTF-8 body and
accepted with a valid one. -/
theorem strict_utf8_reject_counterexample :
    Worker.call (Hub.handle Hub.new (strBytes "ping") (Hook.callback 0))
        (fun _ raw => some (Event.unknown raw))
        ⟨some (strBytes "ping"), some (strBytes "1"), none, some [255]⟩ =
      ⟨true, [], some ⟨400, "Failed to parse request body"⟩⟩ ∧
    Worker.call (Hub.handle Hub.new (strBytes "ping") (Hook.callback 0))
        (fun _ raw => some (Event.unknown raw))
        ⟨some (strBytes "ping"), some (strBytes "1"), none, some ([123, 125])⟩ =
      ⟨true, [0], some ⟨202, "OK"⟩⟩ :=
  ⟨by decide, by decide⟩

/-- C6 amended: a request body that is not valid UTF-8 is rejected with
400 "Failed to parse request body" (strict decoding), with no hook
invoked. -/
theorem invalid_utf8_rejected (m : HubMap)
    (parse : List Nat → List Nat → Option Event) (req : Request)
    (ev dv bodyBytes : List Nat) (hks : List Hook)
    (hev : req.eventHeader = some ev) (hdv : req.deliveryHeader = some dv)
    (hev2 : headerToStr ev = some ev) (hdv2 : headerToStr dv = some dv)
    (hhk : Worker.hooks m ev = some hks)
    (hbody : req.body = some bodyBytes) (hutf : utf8Valid bodyBytes = false) :
    Worker.call m parse req =
      ⟨true, [], some ⟨400, "Failed to parse request body"⟩⟩ := by
  unfold Worker.call
  rw [hev, hdv]
  simp [hev2, hdv2, hhk, hbody, hutf]

/-- C6 amended witness: the theorem applied to a concrete request whose
body is the lone byte 0xFF. -/
theorem invalid_utf8_rejected_witness :
    Worker.call (Hub.handle Hub.new (strBytes "push") (Hook.callback 1))
        (fun _ raw => some (Event.unknown raw))
        ⟨some (strBytes "push"), some (strBytes "2"), none, some [255]⟩ =
      ⟨true, [], some ⟨400, "Failed to parse request body"⟩⟩ :=
  invalid_utf8_rejected _ _ _ _ _ _ [Hook.callback 1] rfl rfl (by decide)
    (by decide) (by decide) rfl (by decide)

/-- C8: when the body of a request with resolved hooks fails to parse
(`Delivery::new` returns `None`), the service answers 400 "Failed to
parse event" and invokes no hook — no delivery is handed to hooks. -/
theorem parse_failure_rejects (m : HubMap)
    (parse : List Nat → List Nat → Option Event) (req : Request)
    (ev dv bodyBytes : List Nat) (hks : List Hook)
    (hev : req.eventHeader = some ev) (hdv : req.deliveryHeader = some dv)
    (hev2 : headerToStr ev = some ev) (hdv2 : headerToStr dv = some dv)
    (hhk : Worker.hooks m ev = some hks)
    (hbody : req.body = some bodyBytes) (hutf : utf8Valid bodyBytes = true)
    (hparse : parse ev bodyBytes = none) :
    Delivery.new parse dv ev bodyBytes (Worker.sigOf req) = none ∧
    Worker.call m parse req = ⟨true, [], some ⟨400, "Failed to parse event"⟩⟩ := by
  have hnew : Delivery.new parse dv ev bodyBytes (Worker.sigOf req) = none := by
    unfold Delivery.new
    rw [hparse]
  refine ⟨hnew, ?_⟩
  unfold Worker.call
  rw [hev, hdv]
  simp [hev2, hdv2, hhk, hbody, hutf, hnew]

/-- C8 witness: the theorem applied to a concrete request whose parse
step fails. -/
theorem parse_failure_rejects_witness :
    Worker.call (Hub.handle Hub.new (strBytes "push") (Hook.callback 1))
        (fun _ _ => none)
        ⟨some (strBytes "push"), some (strBytes "2"), none, some ([123])⟩ =
      ⟨true, [], some ⟨400, "Failed to parse event"⟩⟩ :=
  (parse_failure_rejects _ _ _ _ _ _ [Hook.callback 1] rfl rfl (by decide)
    (by decide) (by decide) rfl (by decide) rfl).2

/-- Helper: when every hook in the list declines to run, the dispatch
loop produces an empty trace and no panic. -/
theorem runHooks_all_skip (hks : List Hook) (d : Delivery)
    (h : ∀ hk ∈ hks, Hook.handle hk d = some []) :
    Worker.runHooks hks d = ([], false) := by
  induction hks with
  | nil => rfl
  | cons a t ih =>
    have ha := h a (by simp)
    have ht := ih (fun hk hm => h hk (by simp [hm]))
    simp [Worker.runHooks, ha, ht]

/-- C5: a present signature that fails verification makes
`AuthenticateHook::handle` return without invoking the inner hook, and
the dispatched response is the fixed success response 202 "OK" whatever
the hooks decided — a verification failure never changes the HTTP
status or body. -/
theorem auth_failure_skips_inner_response_unchanged (secret : List Nat)
    (inner : Hook) (d : Delivery) (sig : List Nat)
    (h1 : d.signature = some sig)
    (h2 : AuthenticateHook.authenticate secret d.unparsed_payload sig =
      some false) :
    Hook.handle (Hook.authenticate secret inner) d = some [] ∧
    ∀ (m : HubMap) (parse : List Nat → List Nat → Option Event)
      (req : Request) (ev dv bodyBytes : List Nat) (hks : List Hook),
      req.eventHeader = some ev → req.deliveryHeader = some dv →
      headerToStr ev = some ev → headerToStr dv = some dv →
      Worker.hooks m ev = some hks →
      req.body = some bodyBytes → utf8Valid bodyBytes = true →
      Delivery.new parse dv ev bodyBytes (Worker.sigOf req) = some d →
      (∀ hk ∈ hks, Hook.handle hk d = some []) →
      Worker.call m parse req = ⟨true, [], some ⟨202, "OK"⟩⟩ := by
  constructor
  · simp [Hook.handle, h1, h2]
  · intro m parse req ev dv bodyBytes hks hev hdv hev2 hdv2 hhk hbody hutf
      hnew hall
    unfold Worker.call
    rw [hev, hdv]
    simp [hev2, hdv2, hhk, hbody, hutf, hnew, runHooks_all_skip hks d hall]

/-- C5 witness: the theorem applied to a concrete failing signature
"sha1=00" under the empty secret — the hook is skipped and the service
still answers 202 "OK". -/
theorem auth_failure_skips_inner_response_unchanged_witness :
    Worker.call
        (Hub.handle Hub.new (strBytes "ping")
          (Hook.authenticate [] (Hook.callback 7)))
        (fun _ raw => some (Event.unknown raw))
        ⟨some (strBytes "ping"), some (strBytes "1"),
         some (strBytes "sha1=00"), some []⟩ =
      ⟨true, [], some ⟨202, "OK"⟩⟩ :=
  (auth_failure_skips_inner_response_unchanged [] (Hook.callback 7)
        ⟨strBytes "1", strBytes "ping", Event.unknown [], [],
         some (strBytes "sha1=00")⟩
        (strBytes "sha1=00") rfl (by decide)).2
    _ _ _ _ _ _ [Hook.authenticate [] (Hook.callback 7)]
    rfl rfl (by decide) (by decide) (by decide) rfl (by decide) (by decide)
    (by decide)

/-- C9: for an event kind outside the known variants and any well-formed
JSON body, the parse step succeeds with the opaque variant holding the
raw text unmodified, and `Delivery::new` succeeds accordingly. -/
theorem unknown_kind_parse_succeeds (wf : List Nat → Bool)
    (knownKinds : List (List Nat))
    (decodeKnown : List Nat → List Nat → Option Event)
    (patch : List Nat → List Nat → List Nat)
    (eventKind rawJson id : List Nat) (sig : Option (List Nat))
    (hwf : wf rawJson = true) (hunk : eventKind ∉ knownKinds) :
    parseEvent wf knownKinds decodeKnown patch eventKind rawJson =
      some (Event.unknown rawJson) ∧
    Delivery.new (parseEvent wf knownKinds decodeKnown patch) id eventKind
        rawJson sig =
      some ⟨id, eventKind, Event.unknown rawJson, rawJson, sig⟩ := by
  have h1 : parseEvent wf knownKinds decodeKnown patch eventKind rawJson =
      some (Event.unknown rawJson) := by
    unfold parseEvent
    simp [hwf, hunk]
  refine ⟨h1, ?_⟩
  unfold Delivery.new
  rw [h1]

/-- C9 witness: the theorem applied to a concrete unknown kind with a
concrete well-formedness test and known-kind set. -/
theorem unknown_kind_parse_succeeds_witness :
    parseEvent (fun _ => true) [strBytes "push"] (fun _ _ => none)
        (fun _ raw => raw) (strBytes "zap") ([123, 125]) =
      some (Event.unknown ([123, 125])) :=
  (unknown_kind_parse_succeeds (fun _ => true) [strBytes "push"]
    (fun _ _ => none) (fun _ raw => raw) (strBytes "zap") ([123, 125])
    (strBytes "9") none rfl (by decide)).1

/-- Helper: `hexVal` maps the lowercase hex digit of a nibble back to it. -/
theorem hexVal_hexDigitLower (n : Nat) (h : n < 16) :
    hexVal (hexDigitLower n) = some n := by
  by_cases h10 : n < 10
  · unfold hexDigitLower
    rw [if_pos h10]
    unfold hexVal
    rw [if_pos (by omega)]
    congr 1
    omega
  · unfold hexDigitLower
    rw [if_neg h10]
    unfold hexVal
    rw [if_neg (by omega), if_pos (by omega)]
    congr 1
    omega

/-- Helper: a hex digit's value is below 16. -/
theorem hexVal_lt_of_some {b n : Nat} (h : hexVal b = some n) : n < 16 := by
  unfold hexVal at h
  split_ifs at h with h1 h2 h3
  · injection h with h'; omega
  · injection h with h'; omega
  · injection h with h'; omega

/-- Helper: decoding the lowercase hex encoding of bytes returns them. -/
theorem fromHex_toHexLower (bs : List Nat) (h : ∀ b ∈ bs, b < 256) :
    fromHex (toHexLower bs) = some bs := by
  induction bs with
  | nil => rfl
  | cons b t ih =>
    have hb : b < 256 := h b (by simp)
    have ht := ih (fun x hx => h x (by simp [hx]))
    have h1 := hexVal_hexDigitLower (b / 16) (by omega)
    have h2 := hexVal_hexDigitLower (b % 16) (by omega)
    have hshape : toHexLower (b :: t) =
        hexDigitLower (b / 16) :: hexDigitLower (b % 16) :: toHexLower t := by
      simp [toHexLower, List.flatMap_cons]
    rw [hshape]
    unfold fromHex
    rw [h1, h2, ht]
    simp
    omega

/-- Helper: the hex encoding has two digits per byte. -/
theorem toHexLower_length (bs : List Nat) :
    (toHexLower bs).length = 2 * bs.length := by
  induction bs with
  | nil => rfl
  | cons b t ih =>
    simp only [toHexLower, List.flatMap_cons] at *
    simp [ih]
    omega

/-- Helper: hex digits of bytes are ASCII. -/
theorem toHexLower_mem_lt (bs : List Nat) (h : ∀ b ∈ bs, b < 256) :
    ∀ c ∈ toHexLower bs, c < 128 := by
  intro c hc
  unfold toHexLower at hc
  obtain ⟨b, hb, hcb⟩ := List.mem_flatMap.mp hc
  have := h b hb
  simp at hcb
  rcases hcb with h1 | h1 <;> subst h1 <;> unfold hexDigitLower <;>
    split_ifs <;> omega

/-- Helper: big-endian word bytes are bytes. -/
theorem wordToBytes_mem_lt (x : Nat) : ∀ b ∈ wordToBytes x, b < 256 := by
  intro b hb
  simp [wordToBytes] at hb
  rcases hb with h | h | h | h <;> omega

/-- Helper: a SHA-1 digest has twenty bytes. -/
theorem sha1_length (msg : List Nat) : (sha1 msg).length = 20 := by
  simp [sha1, wordToBytes]

/-- Helper: SHA-1 digest entries are bytes. -/
theorem sha1_mem_lt (msg : List Nat) : ∀ b ∈ sha1 msg, b < 256 := by
  intro b hb
  unfold sha1 at hb
  simp only [List.mem_append] at hb
  rcases hb with (((h | h) | h) | h) | h <;> exact wordToBytes_mem_lt _ b h

/-- Helper: an HMAC-SHA1 tag has twenty bytes. -/
theorem hmacSha1_length (k m : List Nat) : (hmacSha1 k m).length = 20 := by
  simp [hmacSha1, sha1_length]

/-- Helper: HMAC-SHA1 tag entries are bytes. -/
theorem hmacSha1_mem_lt (k m : List Nat) : ∀ b ∈ hmacSha1 k m, b < 256 := by
  intro b hb
  simp only [hmacSha1] at hb
  exact sha1_mem_lt _ b hb

/-- Helper: a successful hex decode determines the digit values of the
input: they are the nibbles of the output. -/
theorem fromHex_nibbles :
    ∀ (s v : List Nat), fromHex s = some v →
      s.map hexVal = v.flatMap (fun b => [some (b / 16), some (b % 16)])
  | [], v, h => by
    simp [fromHex] at h
    subst h
    simp
  | [b], v, h => by
    simp [fromHex] at h
  | b1 :: b2 :: rest, v, h => by
    unfold fromHex at h
    cases h1 : hexVal b1 with
    | none => rw [h1] at h; simp at h
    | some hi =>
      cases h2 : hexVal b2 with
      | none => rw [h1, h2] at h; simp at h
      | some lo =>
        cases h3 : fromHex rest with
        | none => rw [h1, h2, h3] at h; simp at h
        | some bs =>
          rw [h1, h2, h3] at h
          simp at h
          subst h
          have hlo := hexVal_lt_of_some h2
          have hdiv : (hi * 16 + lo) / 16 = hi := by omega
          have hmod : (hi * 16 + lo) % 16 = lo := by omega
          simp [h1, h2, fromHex_nibbles rest bs h3, hdiv, hmod]

/-- Helper: two equal-value hex decodes have digitwise equal values. -/
theorem fromHex_determines_nibbles {s t v : List Nat}
    (hs : fromHex s = some v) (ht : fromHex t = some v) :
    s.map hexVal = t.map hexVal :=
  (fromHex_nibbles s v hs).trans (fromHex_nibbles t v ht).symm

/-- Helper: byte five after the five-byte "sha1=" tag is an ASCII head,
so the slice does not panic. -/
theorem boundary_after_tag (c : Nat) (t : List Nat) (hc : c < 128) :
    isCharBoundary ([115, 104, 97, 49, 61] ++ c :: t) 5 = true := by
  have h5 : ([115, 104, 97, 49, 61] ++ c :: t)[5]? = some c := by
    simp [List.cons_append, List.nil_append]
  unfold isCharBoundary
  rw [h5]
  simp
  omega

/-- C3 fails on the code: flipping the case of one hex character yields a
signature differing from the canonical one in exactly one character
(byte 12: `C` for `c`) that still verifies, because `hex::FromHex`
accepts both cases; the canonical lowercase signature verifies too. -/
theorem case_flipped_signature_still_verifies :
    AuthenticateHook.authenticate (strBytes "secret")
        (zenPayload)
        (strBytes "sha1=4471180C43c722dcd4cd4445dd1ec771bebd9b8e") =
      some true ∧
    strBytes "sha1=4471180C43c722dcd4cd4445dd1ec771bebd9b8e" =
      (strBytes "sha1=4471180c43c722dcd4cd4445dd1ec771bebd9b8e").set 12 67 ∧
    (strBytes "sha1=4471180c43c722dcd4cd4445dd1ec771bebd9b8e").getD 12 0 = 99 ∧
    (67 : Nat) ≠ 99 ∧
    AuthenticateHook.authenticate (strBytes "secret")
        (zenPayload)
        (strBytes "sha1=4471180c43c722dcd4cd4445dd1ec771bebd9b8e") =
      some true :=
  ⟨by decide, by decide, by decide, by decide, by decide⟩

/-- C3 amended: for every secret and payload, the signature "sha1=" plus
the lowercase hex HMAC-SHA1 of the raw payload verifies, and any
signature obtained from it by replacing one hex character with an ASCII
character of a different hex value (a different digit, or not a hex
digit at all — as opposed to a case-only change) fails verification. -/
theorem correct_signature_verifies (secret payload : List Nat) :
    AuthenticateHook.authenticate secret payload
        (strBytes "sha1=" ++ toHexLower (hmacSha1 secret payload)) =
      some true ∧
    ∀ i c, i < (toHexLower (hmacSha1 secret payload)).length → c < 128 →
      hexVal c ≠ hexVal ((toHexLower (hmacSha1 secret payload)).getD i 0) →
      AuthenticateHook.authenticate secret payload
          (strBytes "sha1=" ++ (toHexLower (hmacSha1 secret payload)).set i c) =
        some false := by
  have hbytes : ∀ b ∈ hmacSha1 secret payload, b < 256 := hmacSha1_mem_lt _ _
  have hlen : (toHexLower (hmacSha1 secret payload)).length = 40 := by
    rw [toHexLower_length, hmacSha1_length]
  have hhex : fromHex (toHexLower (hmacSha1 secret payload)) =
      some (hmacSha1 secret payload) := fromHex_toHexLower _ hbytes
  have hlt : ∀ x ∈ toHexLower (hmacSha1 secret payload), x < 128 :=
    toHexLower_mem_lt _ hbytes
  constructor
  · cases hcons : toHexLower (hmacSha1 secret payload) with
    | nil => rw [hcons] at hlen; simp at hlen
    | cons c t =>
      have hc : c < 128 := hlt c (by rw [hcons]; simp)
      unfold AuthenticateHook.authenticate
      rw [show strBytes "sha1=" = [115, 104, 97, 49, 61] from rfl]
      rw [if_pos ⟨boundary_after_tag c t hc,
        by simp only [List.length_append, List.length_cons]; omega⟩]
      have hdrop : ([115, 104, 97, 49, 61] ++ c :: t).drop 5 = c :: t := rfl
      rw [hdrop, ← hcons, hhex]
      simp
  · intro i c hi hc hne
    have hilt : i < (toHexLower (hmacSha1 secret payload)).length := hi
    cases hset : (toHexLower (hmacSha1 secret payload)).set i c with
    | nil =>
      have := List.length_set (toHexLower (hmacSha1 secret payload)) i c
      rw [hset] at this
      rw [hlen] at this
      simp at this
    | cons c0 t0 =>
      have hc0 : c0 < 128 := by
        have hmem : c0 ∈ (toHexLower (hmacSha1 secret payload)).set i c := by
          rw [hset]; simp
        rcases List.mem_or_eq_of_mem_set hmem with hm | hm
        · exact hlt c0 hm
        · omega
      unfold AuthenticateHook.authenticate
      rw [show strBytes "sha1=" = [115, 104, 97, 49, 61] from rfl]
      rw [if_pos ⟨boundary_after_tag c0 t0 hc0,
        by simp only [List.length_append, List.length_cons]; omega⟩]
      have hdrop : ([115, 104, 97, 49, 61] ++ c0 :: t0).drop 5 = c0 :: t0 := rfl
      rw [hdrop, ← hset]
      cases hfh : fromHex ((toHexLower (hmacSha1 secret payload)).set i c) with
      | none => rfl
      | some v =>
        have hvne : v ≠ hmacSha1 secret payload := by
          intro he
          subst he
          have hmaps := fromHex_determines_nibbles hfh hhex
          have hgi : ((toHexLower (hmacSha1 secret payload)).set i c)[i]? =
              some c := List.getElem?_set_eq_of_lt _ hilt
          have h1 : (((toHexLower (hmacSha1 secret payload)).set i c).map
              hexVal)[i]? = some (hexVal c) := by
            rw [List.getElem?_map, hgi]
            rfl
          have h2 : ((toHexLower (hmacSha1 secret payload)).map hexVal)[i]? =
              some (hexVal ((toHexLower (hmacSha1 secret payload)).getD i 0)) := by
            rw [List.getElem?_map, List.getElem?_eq_getElem hilt]
            rw [List.getD_eq_getElem?_getD, List.getElem?_eq_getElem hilt]
            rfl
          rw [hmaps, h2] at h1
          exact hne (Option.some.inj h1).symm
        have hbeq : (hmacSha1 secret payload == v) = false :=
          beq_eq_false_iff_ne.mpr (fun he => hvne he.symm)
        simp [hbeq]

/-- C3 amended witness: for the empty secret and payload the canonical
signature verifies, and replacing its first hex digit with the non-hex
character `g` (byte 103) makes verification fail. -/
theorem correct_signature_verifies_witness :
    AuthenticateHook.authenticate [] []
        (strBytes "sha1=" ++ toHexLower (hmacSha1 [] [])) = some true ∧
    (0 < (toHexLower (hmacSha1 [] [])).length ∧ (103 : Nat) < 128 ∧
      hexVal 103 ≠ hexVal ((toHexLower (hmacSha1 [] [])).getD 0 0)) ∧
    AuthenticateHook.authenticate [] []
        (strBytes "sha1=" ++ (toHexLower (hmacSha1 [] [])).set 0 103) =
      some false :=
  ⟨(correct_signature_verifies [] []).1,
   ⟨by decide, by decide, by decide⟩,
   (correct_signature_verifies [] []).2 0 103 (by decide) (by decide)
     (by decide)⟩

/-- C4 fails on the code (code bug): `authenticate` slices
`signature[5..]` without checking length or prefix, so a signature
shorter than five bytes panics (modelled `none`) instead of being a
verification failure, the panic propagates through
`AuthenticateHook::handle`, and any five bytes — not just "sha1=" —
followed by the correct hex digest verifies. -/
theorem short_signature_panics_and_tag_unchecked :
    AuthenticateHook.authenticate (strBytes "secret")
        (zenPayload)
        (strBytes "abc") = none ∧
    Hook.handle (Hook.authenticate (strBytes "secret") (Hook.callback 0))
        ⟨strBytes "1", strBytes "ping", Event.unknown ([123, 125]),
         [123, 125], some (strBytes "abc")⟩ = none ∧
    AuthenticateHook.authenticate (strBytes "secret")
        (zenPayload)
        (strBytes "XXXXX4471180c43c722dcd4cd4445dd1ec771bebd9b8e") =
      some true :=
  ⟨by decide, by decide, by decide⟩

end Afterparty
